import Mathlib

/-!
Verification development for the grid advection and smoothing module of the
python-training notebook collection, together with the notebook-level helper
functions `find_time_var` and `Coord.distancekm`.

Fields on an M×N latitude/longitude grid are shallowly embedded as lists of
rows of rational numbers.  The numeric kernels called by the notebook
(`mpcalc.lat_lon_grid_deltas`, `mpcalc.advection`, `mpcalc.smooth_gaussian`)
are external library code, so they are modelled from the specification; the
notebook-level glue (`find_time_var`, the computation pipeline cell,
`Coord.distancekm`) is translated directly from the notebook sources.
-/

namespace PyTraining

/-- A 2-D field: a list of rows of rational numbers. -/
abbrev Mat := List (List ℚ)

/-- Entry access with out-of-range default 0 (row `i`, column `j`). -/
def mget (m : Mat) (i j : Nat) : ℚ := (m.getD i []).getD j 0

/-- Build an `r × c` matrix from an entry function. -/
def mkMat (r c : Nat) (f : Nat → Nat → ℚ) : Mat :=
  (List.range r).map (fun i => (List.range c).map (fun j => f i j))

/-- Number of rows. -/
def nrows (m : Mat) : Nat := m.length

/-- Number of columns (of the first row). -/
def ncols (m : Mat) : Nat := (m.headD []).length

/-- Boolean check that `m` is a rectangular `r × c` matrix. -/
def rectB (m : Mat) (r c : Nat) : Bool :=
  (m.length == r) && m.all (fun row => row.length == c)

/-- Error taxonomy of the grid module (spec section 7). -/
inductive GridError where
  | invalidGrid
  | shapeMismatch
  | unitMismatch
deriving DecidableEq

/-- Differences of adjacent entries of a list. -/
def adjDiffs : List ℚ → List ℚ
  | x :: y :: rest => (y - x) :: adjDiffs (y :: rest)
  | _ => []

/-- Boolean strict-increase test via adjacent differences. -/
def strictIncB (xs : List ℚ) : Bool := (adjDiffs xs).all (fun d => decide (0 < d))

/-- Boolean strict-decrease test via adjacent differences. -/
def strictDecB (xs : List ℚ) : Bool := (adjDiffs xs).all (fun d => decide (d < 0))

/-- Boolean strict-monotonicity test (ascending or descending). -/
def monoB (xs : List ℚ) : Bool := strictIncB xs || strictDecB xs

/-- Planar-approximation scale: metres per degree of arc. -/
def mPerDeg : ℚ := 111319

/-- Modelled from the spec: `mpcalc.lat_lon_grid_deltas` is external library
code, so the grid-spacing calculator is modelled from spec section 4.1.
For each adjacent pair of coordinate samples the planar-approximation
distance in metres is produced (`|difference in degrees| * mPerDeg`); the
documented shape convention is one-smaller in the differencing dimension
(`dx` has length `N-1` for `N` longitudes, `dy` length `M-1` for `M`
latitudes).  Fails with `InvalidGridError` when either coordinate sequence
is not strictly monotonic or has fewer than 2 points. -/
def computeGridDeltas (lon lat : List ℚ) : Except GridError (List ℚ × List ℚ) :=
  if lon.length < 2 || lat.length < 2 || !(monoB lon) || !(monoB lat) then
    Except.error GridError.invalidGrid
  else
    Except.ok ((adjDiffs lon).map (fun d => |d| * mPerDeg),
               (adjDiffs lat).map (fun d => |d| * mPerDeg))

/-- Modelled from the spec: pointwise ∂T/∂x (column direction `j`) of
spec section 4.2 — centred finite difference divided by the spacing at
interior points, one-sided forward/backward differences at the first and
last column. -/
def dTdx (T dx : Mat) (c i j : Nat) : ℚ :=
  if j = 0 then (mget T i 1 - mget T i 0) / mget dx i 0
  else if j = c - 1 then (mget T i (c - 1) - mget T i (c - 2)) / mget dx i (c - 1)
  else (mget T i (j + 1) - mget T i (j - 1)) / (2 * mget dx i j)

/-- Modelled from the spec: pointwise ∂T/∂y (row direction `i`), symmetric
to `dTdx`. -/
def dTdy (T dy : Mat) (r i j : Nat) : ℚ :=
  if i = 0 then (mget T 1 j - mget T 0 j) / mget dy 0 j
  else if i = r - 1 then (mget T (r - 1) j - mget T (r - 2) j) / mget dy (r - 1) j
  else (mget T (i + 1) j - mget T (i - 1) j) / (2 * mget dy i j)

/-- Modelled from the spec: `mpcalc.advection` is external library code, so
the advection operator is modelled from spec section 4.2:
`A[i,j] = -(u[i,j]*dTdx[i,j] + v[i,j]*dTdy[i,j])`, with the gradients given
by `dTdx`/`dTdy`.  Fails fast with `ShapeMismatchError` (no partial result)
when the five input arrays do not all share the scalar field's shape. -/
def advection (T u v dx dy : Mat) : Except GridError Mat :=
  if rectB T (nrows T) (ncols T) && rectB u (nrows T) (ncols T) &&
     rectB v (nrows T) (ncols T) && rectB dx (nrows T) (ncols T) &&
     rectB dy (nrows T) (ncols T) then
    Except.ok (mkMat (nrows T) (ncols T) (fun i j =>
      -(mget u i j * dTdx T dx (ncols T) i j + mget v i j * dTdy T dy (nrows T) i j)))
  else
    Except.error GridError.shapeMismatch

/-- Entrywise scaling of a matrix. -/
def matScale (q : ℚ) (m : Mat) : Mat := m.map (fun row => row.map (fun x => q * x))

/-- Truncation radius of the smoothing kernel: `⌊3σ⌋` grid cells. -/
def srad (σ : ℚ) : Nat := (Int.floor (3 * σ)).toNat

/-- Normalised binomial weight `C(2*rad, k) / 4^rad`, the standard discrete
approximation of a Gaussian kernel row of radius `rad`. -/
def binomW (rad k : Nat) : ℚ := (Nat.choose (2 * rad) k : ℚ) / 4 ^ rad

/-- Clamp an integer index into `[0, n-1]` (nearest-edge boundary policy). -/
def clip (n : Nat) (i : Int) : Nat := (min (max i 0) ((n : Int) - 1)).toNat

/-- Entry access with indices clamped to the grid (extend-edge boundary). -/
def mgetClamp (m : Mat) (r c : Nat) (i j : Int) : ℚ := mget m (clip r i) (clip c j)

/-- Modelled from the spec: `mpcalc.smooth_gaussian` is external library
code, so the smoother is modelled from spec section 4.3: a separable 2-D
convolution with the normalised binomial (discrete Gaussian) kernel of
standard deviation `σ`, truncated at radius `⌊3σ⌋`; the boundary policy is
extend-edge (indices clamped to the grid), applied uniformly.  The output
shape equals the input shape. -/
def smooth_gaussian (f : Mat) (σ : ℚ) : Mat :=
  mkMat (nrows f) (ncols f) (fun i j =>
    ((List.range (2 * srad σ + 1)).map (fun a =>
      ((List.range (2 * srad σ + 1)).map (fun b =>
        binomW (srad σ) a * binomW (srad σ) b *
          mgetClamp f (nrows f) (ncols f)
            ((i : Int) + (a : Int) - (srad σ : Int))
            ((j : Int) + (b : Int) - (srad σ : Int)))).sum)).sum)

/-- The three gridded fields the notebook hands to the renderer. -/
structure PlotFields where
  zSmooth : Mat
  tempOut : Mat
  advOut : Mat
deriving DecidableEq

/-- The notebook's computation cell (`850hPa_Temperature_Advection.ipynb`,
"Begin data calculations"): compute the advection of the temperature field,
then smooth the geopotential height field and the advection field with
width 2; the temperature field itself is passed on to the plotting cell
unsmoothed. -/
def pipeline (temp hght u v dx dy : Mat) : Except GridError PlotFields :=
  match advection temp u v dx dy with
  | Except.error e => Except.error e
  | Except.ok adv0 =>
      Except.ok (PlotFields.mk (smooth_gaussian hght 2) temp (smooth_gaussian adv0 2))

/-- Split a character list into maximal whitespace-free words
(accumulator holds the current word reversed). -/
def wordsAux : List Char → List Char → List (List Char)
  | [], cur => if cur.isEmpty then [] else [cur.reverse]
  | ch :: cs, cur =>
    if ch.isWhitespace then
      (if cur.isEmpty then wordsAux cs [] else cur.reverse :: wordsAux cs [])
    else wordsAux cs (ch :: cur)

/-- Python's `str.split()` with no arguments: split on whitespace runs,
discarding empty pieces. -/
def pySplit (s : String) : List String := (wordsAux s.data []).map String.mk

/-- Python's `str.startswith`. -/
def strStartsWith (s pre : String) : Bool := pre.data.isPrefixOf s.data

/-- A netCDF variable as used by `find_time_var`: its `coordinates`
attribute (a whitespace-separated list of coordinate names) and its
`name`. -/
structure NCVar where
  coordinates : String
  name : String

/-- Translated from the notebook helper:
`for coord_name in var.coordinates.split(): if coord_name.startswith(time_basename): return coord_name`,
`raise ValueError('No time variable found for ' + var.name)`. -/
def find_time_var (var : NCVar) (time_basename : String := "time") : Except String String :=
  match (pySplit var.coordinates).find? (fun coord_name => strStartsWith coord_name time_basename) with
  | some coord_name => Except.ok coord_name
  | none => Except.error ("No time variable found for " ++ var.name)

/-- Earth location identified by (latitude, longitude) coordinates, from
the `Whetting_Your_Appetite_for_Python` notebook. -/
structure Coord where
  lat : ℝ
  lon : ℝ

/-- Translated from the notebook: distance between two points in
kilometres via the spherical law of cosines. -/
noncomputable def Coord.distancekm (self p : Coord) : ℝ :=
  let DEGREES_TO_RADIANS := Real.pi / 180
  let EARTH_RADIUS : ℝ := 6373
  let phi1 := (90 - self.lat) * DEGREES_TO_RADIANS
  let phi2 := (90 - p.lat) * DEGREES_TO_RADIANS
  let theta1 := self.lon * DEGREES_TO_RADIANS
  let theta2 := p.lon * DEGREES_TO_RADIANS
  let cosv := Real.sin phi1 * Real.sin phi2 * Real.cos (theta1 - theta2) +
              Real.cos phi1 * Real.cos phi2
  Real.arccos cosv * EARTH_RADIUS

/-! General lemmas about the matrix embedding. -/

theorem length_mkMat (r c : Nat) (f : Nat → Nat → ℚ) : (mkMat r c f).length = r := by
  simp [mkMat]

theorem nrows_mkMat (r c : Nat) (f : Nat → Nat → ℚ) : nrows (mkMat r c f) = r := by
  simp [nrows, mkMat]

theorem ncols_mkMat {r : Nat} (c : Nat) (f : Nat → Nat → ℚ) (hr : 0 < r) :
    ncols (mkMat r c f) = c := by
  rcases r with _ | r
  · exact absurd hr (by simp)
  · simp [ncols, mkMat, List.range_succ_eq_map]

theorem mget_mkMat {r c : Nat} (f : Nat → Nat → ℚ) {i j : Nat} (hi : i < r) (hj : j < c) :
    mget (mkMat r c f) i j = f i j := by
  have hrow : (mkMat r c f).getD i [] = (List.range c).map (fun j => f i j) := by
    rw [List.getD_eq_getElem _ _ (by simpa [mkMat] using hi)]
    simp [mkMat]
  unfold mget
  rw [hrow, List.getD_eq_getElem _ _ (by simpa using hj)]
  simp

theorem rectB_iff {m : Mat} {r c : Nat} :
    rectB m r c = true ↔ m.length = r ∧ ∀ row ∈ m, row.length = c := by
  simp [rectB, List.all_eq_true]

theorem rectB_mkMat (r c : Nat) (f : Nat → Nat → ℚ) : rectB (mkMat r c f) r c = true := by
  rw [rectB_iff]
  constructor
  · simp [mkMat]
  · intro row hrow
    simp only [mkMat, List.mem_map, List.mem_range] at hrow
    obtain ⟨i, -, hrow⟩ := hrow
    simp [← hrow]

theorem mkMat_congr {r c : Nat} {f g : Nat → Nat → ℚ}
    (h : ∀ i < r, ∀ j < c, f i j = g i j) : mkMat r c f = mkMat r c g := by
  unfold mkMat
  apply List.map_congr_left
  intro i hi
  apply List.map_congr_left
  intro j hj
  exact h i (List.mem_range.mp hi) j (List.mem_range.mp hj)

theorem eq_mkMat {m : Mat} {r c : Nat} (h : rectB m r c = true) :
    mkMat r c (fun i j => mget m i j) = m := by
  obtain ⟨hr, hc⟩ := rectB_iff.mp h
  apply List.ext_getElem
  · simp [mkMat, hr]
  · intro i h1 h2
    have hir : i < r := by simpa [mkMat] using h1
    have him : i < m.length := by omega
    have hrow : m[i].length = c := hc m[i] (List.getElem_mem him)
    simp only [mkMat, List.getElem_map, List.getElem_range]
    apply List.ext_getElem
    · simpa using hrow.symm
    · intro j h3 h4
      have hjc : j < c := by simpa using h3
      simp only [List.getElem_map, List.getElem_range]
      unfold mget
      have h5 : m.getD i [] = m[i] := List.getD_eq_getElem _ _ him
      rw [h5, List.getD_eq_getElem _ _ (by omega)]

theorem mget_matScale (q : ℚ) (m : Mat) (i j : Nat) :
    mget (matScale q m) i j = q * mget m i j := by
  unfold mget matScale
  rcases Nat.lt_or_ge i m.length with hi | hi
  · have h1 : (m.map (fun row => row.map (fun x => q * x))).getD i [] =
        m[i].map (fun x => q * x) := by
      rw [List.getD_eq_getElem _ _ (by simpa using hi)]
      simp
    have h2 : m.getD i [] = m[i] := List.getD_eq_getElem _ _ hi
    rw [h1, h2]
    rcases Nat.lt_or_ge j m[i].length with hj | hj
    · rw [List.getD_eq_getElem _ _ (by simpa using hj), List.getD_eq_getElem _ _ hj,
        List.getElem_map]
    · rw [List.getD_eq_default _ _ (by simpa using hj), List.getD_eq_default _ _ hj,
        mul_zero]
  · have h1 : (m.map (fun row => row.map (fun x => q * x))).getD i [] = [] :=
      List.getD_eq_default _ _ (by simpa using hi)
    have h2 : m.getD i [] = [] := List.getD_eq_default _ _ hi
    rw [h1, h2]
    simp

theorem rectB_matScale (q : ℚ) (m : Mat) (r c : Nat) :
    rectB (matScale q m) r c = rectB m r c := by
  unfold rectB matScale
  rw [List.length_map, List.all_map]
  have hfun : ((fun row => row.length == c) ∘ fun row : List ℚ => row.map (fun x => q * x))
      = (fun row : List ℚ => row.length == c) := by
    funext row
    simp [Function.comp]
  rw [hfun]

theorem matScale_mkMat (q : ℚ) (r c : Nat) (f : Nat → Nat → ℚ) :
    matScale q (mkMat r c f) = mkMat r c (fun i j => q * f i j) := by
  simp [matScale, mkMat, List.map_map, Function.comp]

theorem nrows_matScale (q : ℚ) (m : Mat) : nrows (matScale q m) = nrows m := by
  simp [nrows, matScale]

theorem ncols_matScale (q : ℚ) (m : Mat) : ncols (matScale q m) = ncols m := by
  rcases m with _ | ⟨row, rest⟩
  · simp [ncols, matScale]
  · simp [ncols, matScale]

theorem clip_coe {n i : Nat} (h : i < n) : clip n (i : Int) = i := by
  unfold clip
  have h0 : max (i : Int) 0 = (i : Int) := max_eq_left (by positivity)
  have h1 : min (i : Int) ((n : Int) - 1) = (i : Int) := min_eq_left (by omega)
  rw [h0, h1, Int.toNat_natCast]

theorem srad_eq_zero {σ : ℚ} (h : σ < 1 / 3) : srad σ = 0 := by
  unfold srad
  have h3 : (3 : ℚ) * σ < 1 := by linarith
  have hf : Int.floor ((3 : ℚ) * σ) < 1 := by
    rw [Int.floor_lt]
    exact_mod_cast h3
  exact Int.toNat_of_nonpos (by omega)

theorem length_adjDiffs (xs : List ℚ) : (adjDiffs xs).length = xs.length - 1 := by
  induction xs with
  | nil => simp [adjDiffs]
  | cons x xs ih =>
    rcases xs with _ | ⟨y, rest⟩
    · simp [adjDiffs]
    · rw [adjDiffs]
      simp only [List.length_cons] at ih ⊢
      omega

theorem adjDiffs_ne_zero_of_mono {xs : List ℚ} (h : monoB xs = true) :
    ∀ d ∈ adjDiffs xs, d ≠ 0 := by
  intro d hd
  rcases Bool.or_eq_true _ _ |>.mp h with hinc | hdec
  · have := List.all_eq_true.mp hinc d hd
    have : (0 : ℚ) < d := of_decide_eq_true this
    exact ne_of_gt this
  · have := List.all_eq_true.mp hdec d hd
    have : d < 0 := of_decide_eq_true this
    exact ne_of_lt this

theorem find?_first {α : Type} (p : α → Bool) (l1 : List α) (c : α) (l2 : List α)
    (h1 : ∀ x ∈ l1, p x = false) (hc : p c = true) :
    (l1 ++ c :: l2).find? p = some c := by
  induction l1 with
  | nil => simpa using List.find?_cons_of_pos l2 hc
  | cons a l ih =>
    rw [List.cons_append, List.find?_cons_of_neg]
    · exact ih (fun x hx => h1 x (List.mem_cons_of_mem a hx))
    · simp [h1 a (List.mem_cons_self a l)]

/-- Helper: a rectangular nonempty matrix has the checked column count. -/
theorem ncols_of_rectB {m : Mat} {r c : Nat} (h : rectB m r c = true) (hr : 0 < r) :
    ncols m = c := by
  obtain ⟨hlen, hrows⟩ := rectB_iff.mp h
  rcases m with _ | ⟨row, rest⟩
  · simp at hlen
    omega
  · exact hrows row (List.mem_cons_self row rest)

/-- Helper: a rectangular matrix has the checked row count. -/
theorem nrows_of_rectB {m : Mat} {r c : Nat} (h : rectB m r c = true) : nrows m = r :=
  (rectB_iff.mp h).1

/-- Helper: the smoothing radius for the notebook's width `σ = 2` is 6. -/
theorem srad_two : srad 2 = 6 := by
  unfold srad
  rw [show (3 : ℚ) * 2 = 6 by norm_num]
  rw [show Int.floor ((6 : ℚ)) = 6 by norm_num]
  rfl

/-- Helper: clamping any index into a single-row dimension gives 0. -/
theorem clip_one (z : Int) : clip 1 z = 0 := by
  unfold clip
  omega

/-- Helper: clamping a non-positive index into a two-wide dimension gives 0. -/
theorem clip_two_nonpos {z : Int} (h : z ≤ 0) : clip 2 z = 0 := by
  unfold clip
  omega

/-- Helper: clamping a positive index into a two-wide dimension gives 1. -/
theorem clip_two_pos {z : Int} (h : 1 ≤ z) : clip 2 z = 1 := by
  unfold clip
  omega

/-- Helper: every entry read of the zero 1×2 matrix is zero. -/
theorem mget_zero_pair (i j : Nat) : mget [[(0 : ℚ), 0]] i j = 0 := by
  unfold mget
  rcases i with _ | i
  · rcases j with _ | _ | j <;> simp [List.getD]
  · simp [List.getD]

/-- Helper: a 1×2 matrix built from an entry function, explicitly. -/
theorem mkMat_one_two (g : Nat → Nat → ℚ) : mkMat 1 2 g = [[g 0 0, g 0 1]] := rfl

/-! Claim theorems. -/

/-- C2: for every valid non-degenerate grid (both coordinate sequences
strictly monotonic with at least 2 points), `computeGridDeltas` returns
spacing arrays with every entry strictly positive, of the documented shape
(one smaller than the coordinate sequence in the differencing dimension). -/
theorem computeGridDeltas_pos (lon lat : List ℚ)
    (hlon2 : 2 ≤ lon.length) (hlat2 : 2 ≤ lat.length)
    (hlon : monoB lon = true) (hlat : monoB lat = true) :
    ∃ dx dy, computeGridDeltas lon lat = Except.ok (dx, dy) ∧
      (∀ d ∈ dx, 0 < d) ∧ (∀ d ∈ dy, 0 < d) ∧
      dx.length = lon.length - 1 ∧ dy.length = lat.length - 1 := by
  refine ⟨(adjDiffs lon).map (fun d => |d| * mPerDeg),
          (adjDiffs lat).map (fun d => |d| * mPerDeg), ?_, ?_, ?_, ?_, ?_⟩
  · unfold computeGridDeltas
    rw [if_neg]
    simp only [Bool.or_eq_true, decide_eq_true_eq, Bool.not_eq_true', not_or]
    refine ⟨⟨⟨by omega, by omega⟩, ?_⟩, ?_⟩
    · simp [hlon]
    · simp [hlat]
  · intro d hd
    obtain ⟨e, he, rfl⟩ := List.mem_map.mp hd
    have hne := adjDiffs_ne_zero_of_mono hlon e he
    have h1 : (0 : ℚ) < |e| := abs_pos.mpr hne
    have h2 : (0 : ℚ) < mPerDeg := by norm_num [mPerDeg]
    exact mul_pos h1 h2
  · intro d hd
    obtain ⟨e, he, rfl⟩ := List.mem_map.mp hd
    have hne := adjDiffs_ne_zero_of_mono hlat e he
    have h1 : (0 : ℚ) < |e| := abs_pos.mpr hne
    have h2 : (0 : ℚ) < mPerDeg := by norm_num [mPerDeg]
    exact mul_pos h1 h2
  · simp [length_adjDiffs]
  · simp [length_adjDiffs]

/-- Witness for C2: a concrete 2-point ascending grid. -/
theorem computeGridDeltas_pos_witness :
    ∃ dx dy, computeGridDeltas [0, 1] [10, 20] = Except.ok (dx, dy) ∧
      (∀ d ∈ dx, 0 < d) ∧ (∀ d ∈ dy, 0 < d) ∧
      dx.length = 1 ∧ dy.length = 1 := by
  have h := computeGridDeltas_pos [0, 1] [10, 20] (by decide) (by decide)
    (by norm_num [monoB, strictIncB, strictDecB, adjDiffs])
    (by norm_num [monoB, strictIncB, strictDecB, adjDiffs])
  simpa using h

/-- C3: `computeGridDeltas` fails with `InvalidGridError` whenever either
coordinate sequence is non-monotonic or has fewer than 2 points; in
particular every call whose latitude sequence is `[10, 20, 15]` fails with
`InvalidGridError`. -/
theorem computeGridDeltas_invalid :
    (∀ lon lat : List ℚ,
        lon.length < 2 ∨ lat.length < 2 ∨ monoB lon = false ∨ monoB lat = false →
        computeGridDeltas lon lat = Except.error GridError.invalidGrid) ∧
    (∀ lon : List ℚ,
        computeGridDeltas lon [10, 20, 15] = Except.error GridError.invalidGrid) := by
  have hmain : ∀ lon lat : List ℚ,
      lon.length < 2 ∨ lat.length < 2 ∨ monoB lon = false ∨ monoB lat = false →
      computeGridDeltas lon lat = Except.error GridError.invalidGrid := by
    intro lon lat h
    unfold computeGridDeltas
    rw [if_pos]
    simp only [Bool.or_eq_true, decide_eq_true_eq, Bool.not_eq_true']
    tauto
  refine ⟨hmain, fun lon => ?_⟩
  apply hmain
  right; right; right
  norm_num [monoB, strictIncB, strictDecB, adjDiffs]

/-- Witness for C3: the non-monotonic latitude sequence of the claim. -/
theorem computeGridDeltas_invalid_witness :
    computeGridDeltas [0, 1] [10, 20, 15] = Except.error GridError.invalidGrid :=
  computeGridDeltas_invalid.2 [0, 1]

/-- C4: `advection` fails fast with `ShapeMismatchError` (an error value,
no partial result) whenever the five arrays do not share a common shape; in
particular every call with a rectangular 3×3 scalar field and a 4×4 wind
component fails with `ShapeMismatchError`. -/
theorem advection_shape_mismatch :
    (∀ T u v dx dy : Mat,
        (rectB T (nrows T) (ncols T) && rectB u (nrows T) (ncols T) &&
         rectB v (nrows T) (ncols T) && rectB dx (nrows T) (ncols T) &&
         rectB dy (nrows T) (ncols T)) = false →
        advection T u v dx dy = Except.error GridError.shapeMismatch) ∧
    (∀ T u v dx dy : Mat, rectB T 3 3 = true → rectB u 4 4 = true →
        advection T u v dx dy = Except.error GridError.shapeMismatch) := by
  have hmain : ∀ T u v dx dy : Mat,
      (rectB T (nrows T) (ncols T) && rectB u (nrows T) (ncols T) &&
       rectB v (nrows T) (ncols T) && rectB dx (nrows T) (ncols T) &&
       rectB dy (nrows T) (ncols T)) = false →
      advection T u v dx dy = Except.error GridError.shapeMismatch := by
    intro T u v dx dy h
    unfold advection
    rw [if_neg]
    simp [h]
  refine ⟨hmain, ?_⟩
  intro T u v dx dy hT hu
  apply hmain
  have h1 : nrows T = 3 := nrows_of_rectB hT
  have h2 : ncols T = 3 := ncols_of_rectB hT (by omega)
  have h3 : u.length = 4 := (rectB_iff.mp hu).1
  have h4 : rectB u 3 3 = false := by
    simp [rectB, h3]
  rw [h1, h2, h4]
  simp

/-- Witness for C4: a concrete 3×3 scalar field with a 4×4 wind field. -/
theorem advection_shape_mismatch_witness :
    advection [[0, 0, 0], [0, 0, 0], [0, 0, 0]]
        [[1, 1, 1, 1], [1, 1, 1, 1], [1, 1, 1, 1], [1, 1, 1, 1]]
        [[1, 1, 1, 1], [1, 1, 1, 1], [1, 1, 1, 1], [1, 1, 1, 1]]
        [[1, 1, 1, 1], [1, 1, 1, 1], [1, 1, 1, 1], [1, 1, 1, 1]]
        [[1, 1, 1, 1], [1, 1, 1, 1], [1, 1, 1, 1], [1, 1, 1, 1]] =
      Except.error GridError.shapeMismatch :=
  advection_shape_mismatch.2 _ _ _ _ _ (by decide) (by decide)

/-- C8 (counterexample): on a concrete input the notebook pipeline outputs
the raw (unsmoothed) temperature field together with the smoothed height
and advection fields; the Gaussian-smoothed temperature field differs from
the temperature output and from both other outputs, so the computation does
not produce a smoothed version of the source scalar field. -/
theorem pipeline_counterexample :
    pipeline [[0, 4096]] [[0, 0]] [[0, 0]] [[0, 0]] [[1, 1]] [[1, 1]] =
        Except.ok ⟨[[0, 0]], [[0, 4096]], [[0, 0]]⟩ ∧
    smooth_gaussian [[0, 4096]] 2 ≠ [[0, 4096]] ∧
    smooth_gaussian [[0, 4096]] 2 ≠ [[0, 0]] := by
  have hadv : advection [[0, 4096]] [[0, 0]] [[0, 0]] [[1, 1]] [[1, 1]] =
      Except.ok [[0, 0]] := by
    unfold advection
    rw [if_pos (by decide)]
    rw [show nrows [[(0 : ℚ), 4096]] = 1 from rfl,
      show ncols [[(0 : ℚ), 4096]] = 2 from rfl, mkMat_one_two]
    refine congrArg Except.ok ?_
    simp [mget_zero_pair]
  have hzz : smooth_gaussian [[0, 0]] 2 = [[0, 0]] := by
    unfold smooth_gaussian
    rw [show nrows [[(0 : ℚ), 0]] = 1 from rfl,
      show ncols [[(0 : ℚ), 0]] = 2 from rfl, mkMat_one_two]
    simp only [List.cons.injEq, and_true]
    constructor
    · refine List.sum_eq_zero ?_
      intro x hx
      obtain ⟨a, -, rfl⟩ := List.mem_map.mp hx
      refine List.sum_eq_zero ?_
      intro y hy
      obtain ⟨b, -, rfl⟩ := List.mem_map.mp hy
      unfold mgetClamp
      rw [mget_zero_pair, mul_zero]
    · refine List.sum_eq_zero ?_
      intro x hx
      obtain ⟨a, -, rfl⟩ := List.mem_map.mp hx
      refine List.sum_eq_zero ?_
      intro y hy
      obtain ⟨b, -, rfl⟩ := List.mem_map.mp hy
      unfold mgetClamp
      rw [mget_zero_pair, mul_zero]
  have hval : mget (smooth_gaussian [[0, 4096]] 2) 0 0 = 1586 := by
    unfold smooth_gaussian
    rw [show nrows [[(0 : ℚ), 4096]] = 1 from rfl,
      show ncols [[(0 : ℚ), 4096]] = 2 from rfl, srad_two]
    rw [mget_mkMat _ (show 0 < 1 by norm_num) (show 0 < 2 by norm_num)]
    rw [show (2 * 6 + 1 : ℕ) = 13 from rfl]
    rw [show List.range 13 = [0, 1, 2, 3, 4, 5, 6, 7, 8, 9, 10, 11, 12] from by decide]
    simp only [List.map_cons, List.map_nil, List.sum_cons, List.sum_nil, mgetClamp,
      binomW, Nat.cast_ofNat, Nat.cast_zero, Nat.cast_one]
    norm_num [clip_one, clip_two_nonpos, clip_two_pos,
      show mget [[(0 : ℚ), 4096]] 0 0 = 0 from rfl,
      show mget [[(0 : ℚ), 4096]] 0 1 = 4096 from rfl,
      show Nat.choose 12 0 = 1 from by decide, show Nat.choose 12 1 = 12 from by decide,
      show Nat.choose 12 2 = 66 from by decide, show Nat.choose 12 3 = 220 from by decide,
      show Nat.choose 12 4 = 495 from by decide, show Nat.choose 12 5 = 792 from by decide,
      show Nat.choose 12 6 = 924 from by decide, show Nat.choose 12 7 = 792 from by decide,
      show Nat.choose 12 8 = 495 from by decide, show Nat.choose 12 9 = 220 from by decide,
      show Nat.choose 12 10 = 66 from by decide, show Nat.choose 12 11 = 12 from by decide,
      show Nat.choose 12 12 = 1 from by decide]
  refine ⟨?_, ?_, ?_⟩
  · unfold pipeline
    rw [hadv]
    simp only [hzz]
  · intro h
    have h0 := congrArg (fun m => mget m 0 0) h
    simp only at h0
    rw [hval, show mget [[(0 : ℚ), 4096]] 0 0 = 0 from rfl] at h0
    norm_num at h0
  · intro h
    have h0 := congrArg (fun m => mget m 0 0) h
    simp only at h0
    rw [hval, mget_zero_pair] at h0
    norm_num at h0

/-- C8 (amended): whenever the advection computation succeeds, the notebook
pipeline produces the Gaussian-smoothed geopotential height field and the
Gaussian-smoothed advection field (both with width 2), while the source
temperature field is passed through to plotting unsmoothed. -/
theorem pipeline_smooths_height_and_advection (temp hght u v dx dy adv0 : Mat)
    (h : advection temp u v dx dy = Except.ok adv0) :
    pipeline temp hght u v dx dy =
      Except.ok ⟨smooth_gaussian hght 2, temp, smooth_gaussian adv0 2⟩ := by
  unfold pipeline
  rw [h]

/-- Witness for C8 (amended): a concrete 1×2 input on which the advection
computation succeeds. -/
theorem pipeline_smooths_height_and_advection_witness :
    pipeline [[0, 4096]] [[7, 7]] [[0, 0]] [[0, 0]] [[1, 1]] [[1, 1]] =
      Except.ok ⟨smooth_gaussian [[7, 7]] 2, [[0, 4096]],
        smooth_gaussian [[0, 0]] 2⟩ :=
  pipeline_smooths_height_and_advection [[0, 4096]] [[7, 7]] [[0, 0]] [[0, 0]]
    [[1, 1]] [[1, 1]] [[0, 0]]
    (by
      unfold advection
      rw [if_pos (by decide)]
      rw [show nrows [[(0 : ℚ), 4096]] = 1 from rfl,
        show ncols [[(0 : ℚ), 4096]] = 2 from rfl, mkMat_one_two]
      refine congrArg Except.ok ?_
      simp [mget_zero_pair])

/-- C9: `find_time_var` returns the first coordinate name (in the
whitespace-split `coordinates` attribute) starting with `time_basename`,
and raises a `ValueError` naming the variable when no coordinate name
starts with `time_basename`. -/
theorem find_time_var_first_match (var : NCVar) (tb : String) :
    (∀ l1 c l2, pySplit var.coordinates = l1 ++ c :: l2 →
        (∀ x ∈ l1, strStartsWith x tb = false) → strStartsWith c tb = true →
        find_time_var var tb = Except.ok c) ∧
    ((∀ x ∈ pySplit var.coordinates, strStartsWith x tb = false) →
        find_time_var var tb =
          Except.error ("No time variable found for " ++ var.name)) := by
  constructor
  · intro l1 c l2 hsplit h1 hc
    unfold find_time_var
    rw [hsplit, find?_first _ l1 c l2 h1 hc]
  · intro hall
    unfold find_time_var
    rw [List.find?_eq_none.mpr]
    intro x hx
    simp [hall x hx]

/-- Witness for C9: a variable with a matching third coordinate, and one
with no matching coordinate. -/
theorem find_time_var_first_match_witness :
    find_time_var ⟨"lat lon time1", "Temperature"⟩ "time" = Except.ok "time1" ∧
    find_time_var ⟨"lat lon", "Temperature"⟩ "time" =
      Except.error "No time variable found for Temperature" := by
  constructor
  · exact (find_time_var_first_match ⟨"lat lon time1", "Temperature"⟩ "time").1
      ["lat", "lon"] "time1" [] (by decide) (by decide) (by decide)
  · have h := (find_time_var_first_match ⟨"lat lon", "Temperature"⟩ "time").2 (by decide)
    exact h.trans (congrArg Except.error (by decide))

/-- C1: for rectangular inputs of a common M×N shape, `advection` returns
the field `A[i,j] = -(u[i,j]*dTdx[i,j] + v[i,j]*dTdy[i,j])`, with the
gradients given by centred finite differences divided by the spacing at
interior points and one-sided (forward/backward) differences at the grid
boundaries; in particular, on a 3×3 grid with `T(x,y) = x` (columns carry
the x coordinate), constant wind `u = 1, v = 0`, and unit spacing, the
advection is `-1` at every point, including the interior point `(1,1)`
(the unit conversion factor is 1 for unit spacing). -/
theorem advection_formula :
    (∀ T u v dx dy : Mat, ∀ r c : Nat, r = nrows T → c = ncols T →
      rectB T r c = true → rectB u r c = true → rectB v r c = true →
      rectB dx r c = true → rectB dy r c = true →
      advection T u v dx dy = Except.ok (mkMat r c (fun i j =>
        -(mget u i j *
            (if j = 0 then (mget T i 1 - mget T i 0) / mget dx i 0
             else if j = c - 1 then
               (mget T i (c - 1) - mget T i (c - 2)) / mget dx i (c - 1)
             else (mget T i (j + 1) - mget T i (j - 1)) / (2 * mget dx i j)) +
          mget v i j *
            (if i = 0 then (mget T 1 j - mget T 0 j) / mget dy 0 j
             else if i = r - 1 then
               (mget T (r - 1) j - mget T (r - 2) j) / mget dy (r - 1) j
             else (mget T (i + 1) j - mget T (i - 1) j) / (2 * mget dy i j)))))) ∧
    (advection (mkMat 3 3 (fun _ j => (j : ℚ))) (mkMat 3 3 (fun _ _ => 1))
        (mkMat 3 3 (fun _ _ => 0)) (mkMat 3 3 (fun _ _ => 1)) (mkMat 3 3 (fun _ _ => 1))
      = Except.ok (mkMat 3 3 (fun _ _ => -1)) ∧
     mget (mkMat 3 3 (fun _ _ => (-1 : ℚ))) 1 1 = -1) := by
  have hmain : ∀ T u v dx dy : Mat, ∀ r c : Nat, r = nrows T → c = ncols T →
      rectB T r c = true → rectB u r c = true → rectB v r c = true →
      rectB dx r c = true → rectB dy r c = true →
      advection T u v dx dy = Except.ok (mkMat r c (fun i j =>
        -(mget u i j *
            (if j = 0 then (mget T i 1 - mget T i 0) / mget dx i 0
             else if j = c - 1 then
               (mget T i (c - 1) - mget T i (c - 2)) / mget dx i (c - 1)
             else (mget T i (j + 1) - mget T i (j - 1)) / (2 * mget dx i j)) +
          mget v i j *
            (if i = 0 then (mget T 1 j - mget T 0 j) / mget dy 0 j
             else if i = r - 1 then
               (mget T (r - 1) j - mget T (r - 2) j) / mget dy (r - 1) j
             else (mget T (i + 1) j - mget T (i - 1) j) / (2 * mget dy i j))))) := by
    intro T u v dx dy r c hr hc hT hu hv hdx hdy
    subst hr hc
    unfold advection
    rw [if_pos (by simp [hT, hu, hv, hdx, hdy])]
    refine congrArg Except.ok (congrArg (mkMat (nrows T) (ncols T)) ?_)
    funext i j
    rw [dTdx, dTdy]
  refine ⟨hmain, ?_, mget_mkMat _ (by norm_num) (by norm_num)⟩
  have h3 := hmain (mkMat 3 3 (fun _ j => (j : ℚ))) (mkMat 3 3 (fun _ _ => 1))
    (mkMat 3 3 (fun _ _ => 0)) (mkMat 3 3 (fun _ _ => 1)) (mkMat 3 3 (fun _ _ => 1))
    3 3 (nrows_mkMat 3 3 _).symm (ncols_mkMat 3 _ (by norm_num)).symm
    (rectB_mkMat 3 3 _) (rectB_mkMat 3 3 _) (rectB_mkMat 3 3 _)
    (rectB_mkMat 3 3 _) (rectB_mkMat 3 3 _)
  rw [h3]
  refine congrArg Except.ok (mkMat_congr ?_)
  intro i hi j hj
  rw [mget_mkMat (fun _ _ => (1 : ℚ)) hi hj, mget_mkMat (fun _ _ => (0 : ℚ)) hi hj,
    one_mul, zero_mul, add_zero]
  split_ifs with e0 e1
  · subst e0
    rw [mget_mkMat (fun _ j => (j : ℚ)) hi (show 1 < 3 by norm_num),
      mget_mkMat (fun _ j => (j : ℚ)) hi (show 0 < 3 by norm_num),
      mget_mkMat (fun _ _ => (1 : ℚ)) hi (show 0 < 3 by norm_num)]
    norm_num
  · have hj2 : j = 2 := by omega
    subst hj2
    rw [mget_mkMat (fun _ j => (j : ℚ)) hi (show 3 - 1 < 3 by norm_num),
      mget_mkMat (fun _ j => (j : ℚ)) hi (show 3 - 2 < 3 by norm_num),
      mget_mkMat (fun _ _ => (1 : ℚ)) hi (show 3 - 1 < 3 by norm_num)]
    norm_num
  · have hj1 : j = 1 := by omega
    subst hj1
    rw [mget_mkMat (fun _ j => (j : ℚ)) hi (show 1 + 1 < 3 by norm_num),
      mget_mkMat (fun _ j => (j : ℚ)) hi (show 1 - 1 < 3 by norm_num)]
    norm_num

/-- Witness for C1: the hypotheses of the general part are satisfiable at a
concrete rectangular 2×2 input. -/
theorem advection_formula_witness :
    ∃ A, advection [[0, 1], [2, 3]] [[1, 1], [1, 1]] [[1, 1], [1, 1]]
        [[1, 1], [1, 1]] [[1, 1], [1, 1]] = Except.ok A :=
  ⟨_, advection_formula.1 [[0, 1], [2, 3]] [[1, 1], [1, 1]] [[1, 1], [1, 1]]
      [[1, 1], [1, 1]] [[1, 1], [1, 1]] 2 2 (by decide) (by decide) (by decide)
      (by decide) (by decide) (by decide) (by decide)⟩

/-- C5: `advection` is linear in the wind field — doubling both wind
components doubles the advection result (entrywise scaling), holding the
scalar field and the spacing fixed.  This holds exactly over ℚ, with the
error behaviour preserved as well. -/
theorem advection_linear_wind (T u v dx dy : Mat) :
    advection T (matScale 2 u) (matScale 2 v) dx dy =
      (advection T u v dx dy).map (matScale 2) := by
  unfold advection
  rw [rectB_matScale, rectB_matScale]
  by_cases hg : (rectB T (nrows T) (ncols T) && rectB u (nrows T) (ncols T) &&
      rectB v (nrows T) (ncols T) && rectB dx (nrows T) (ncols T) &&
      rectB dy (nrows T) (ncols T)) = true
  · rw [if_pos hg, if_pos hg]
    simp only [Except.map]
    rw [matScale_mkMat]
    refine congrArg Except.ok (congrArg (mkMat (nrows T) (ncols T)) ?_)
    funext i j
    rw [mget_matScale, mget_matScale]
    ring
  · rw [if_neg hg, if_neg hg]
    rfl

/-- C6: `advection` of a spatially uniform scalar field on a grid with at
least 2 points in each direction is zero at every grid point, for any wind
and spacing fields of matching shape. -/
theorem advection_uniform_zero (r c : Nat) (t : ℚ) (u v dx dy : Mat)
    (hr : 2 ≤ r) (hc : 2 ≤ c)
    (hu : rectB u r c = true) (hv : rectB v r c = true)
    (hdx : rectB dx r c = true) (hdy : rectB dy r c = true) :
    advection (mkMat r c (fun _ _ => t)) u v dx dy =
      Except.ok (mkMat r c (fun _ _ => 0)) := by
  have hnr : nrows (mkMat r c (fun _ _ => t)) = r := nrows_mkMat r c _
  have hnc : ncols (mkMat r c (fun _ _ => t)) = c := ncols_mkMat c _ (by omega)
  unfold advection
  rw [hnr, hnc]
  rw [if_pos (by rw [rectB_mkMat]; simp [hu, hv, hdx, hdy])]
  refine congrArg Except.ok (mkMat_congr ?_)
  intro i hi j hj
  have h1 : dTdx (mkMat r c fun _ _ => t) dx c i j = 0 := by
    unfold dTdx
    split_ifs with e0 e1
    · rw [mget_mkMat (fun _ _ => t) hi (show 1 < c by omega),
        mget_mkMat (fun _ _ => t) hi (show 0 < c by omega)]
      simp
    · rw [mget_mkMat (fun _ _ => t) hi (show c - 1 < c by omega),
        mget_mkMat (fun _ _ => t) hi (show c - 2 < c by omega)]
      simp
    · rw [mget_mkMat (fun _ _ => t) hi (show j + 1 < c by omega),
        mget_mkMat (fun _ _ => t) hi (show j - 1 < c by omega)]
      simp
  have h2 : dTdy (mkMat r c fun _ _ => t) dy r i j = 0 := by
    unfold dTdy
    split_ifs with e0 e1
    · rw [mget_mkMat (fun _ _ => t) (show 1 < r by omega) hj,
        mget_mkMat (fun _ _ => t) (show 0 < r by omega) hj]
      simp
    · rw [mget_mkMat (fun _ _ => t) (show r - 1 < r by omega) hj,
        mget_mkMat (fun _ _ => t) (show r - 2 < r by omega) hj]
      simp
    · rw [mget_mkMat (fun _ _ => t) (show i + 1 < r by omega) hj,
        mget_mkMat (fun _ _ => t) (show i - 1 < r by omega) hj]
      simp
  rw [h1, h2]
  simp

/-- Witness for C6: a uniform 2×2 field with a concrete wind field. -/
theorem advection_uniform_zero_witness :
    advection (mkMat 2 2 (fun _ _ => 5)) [[1, 2], [3, 4]] [[0, 1], [1, 0]]
        [[1, 1], [1, 1]] [[1, 1], [1, 1]] = Except.ok (mkMat 2 2 (fun _ _ => 0)) :=
  advection_uniform_zero 2 2 5 _ _ _ _ (by decide) (by decide) (by decide) (by decide)
    (by decide) (by decide)

/-- C7: smoothing with `σ` below the minimum resolvable scale (here
`σ < 1/3`, so that the kernel truncation radius `⌊3σ⌋` is zero) returns the
input field exactly, with its shape preserved. -/
theorem smooth_gaussian_small_sigma (f : Mat) (σ : ℚ)
    (hrect : rectB f (nrows f) (ncols f) = true) (hσ : σ < 1 / 3) :
    smooth_gaussian f σ = f := by
  have h0 : srad σ = 0 := srad_eq_zero hσ
  unfold smooth_gaussian
  rw [h0]
  have h1 : 2 * 0 + 1 = 1 := by norm_num
  have hr1 : List.range 1 = [0] := rfl
  rw [h1, hr1]
  simp only [List.map_cons, List.map_nil, List.sum_cons, List.sum_nil,
    add_zero, Nat.cast_zero, sub_zero, binomW, Nat.mul_zero, Nat.choose_self,
    Nat.cast_one, pow_zero, div_one, one_mul]
  have h2 : mkMat (nrows f) (ncols f)
      (fun i j => mgetClamp f (nrows f) (ncols f) (i : Int) (j : Int)) =
      mkMat (nrows f) (ncols f) (fun i j => mget f i j) := by
    apply mkMat_congr
    intro i hi j hj
    unfold mgetClamp
    rw [clip_coe hi, clip_coe hj]
  rw [h2, eq_mkMat hrect]

/-- Witness for C7: a concrete 2×2 field with `σ = 1/4`. -/
theorem smooth_gaussian_small_sigma_witness :
    smooth_gaussian [[1, 2], [3, 4]] (1 / 4) = [[1, 2], [3, 4]] :=
  smooth_gaussian_small_sigma [[1, 2], [3, 4]] (1 / 4) (by decide) (by norm_num)

/-- C10: `Coord.distancekm` is symmetric in its two points. -/
theorem distancekm_symm (a b : Coord) : a.distancekm b = b.distancekm a := by
  simp only [Coord.distancekm]
  rw [Real.cos_sub, Real.cos_sub]
  congr 1
  congr 1
  ring

end PyTraining
